import Mathlib

/-!
Verification of the antigravity three-runtime demo.

Shallow embedding of the coordination logic of the repository:
* the background worker loop of WorkerColumn.tsx (a 1500 ms interval whose
  body performs 2,000,000 square-root iterations and then increments the
  shared counter bgCount by one);
* the per-frame poller of WorkerColumn.tsx (useFrameCallback body), which
  reads the shared counter, mirrors it into displayCount when it changed,
  and launches a two-phase withTiming bounce on ballY;
* the main-thread ticker of AntigravityScreen.tsx (the 16 ms setInterval
  updating bridgePos with a reflecting bounce rule);
* the worklet helper getAngle of RocketAppleColumn.tsx;
* the jam action jamJSThread of AntigravityScreen.tsx;
* the layout bound BOUNCE_HEIGHT of AntigravityScreen.tsx.

Real numbers of the JavaScript source are modelled as exact rationals.
-/

namespace Antigravity

/-! ## Background worker (WorkerColumn.tsx, createWorkletRuntime initializer)

The initializer registers a 1500 ms interval on the worker thread; each
firing runs the 2,000,000-iteration square-root loop and then executes
bgCount.setBlocking (fun prev => prev + 1).
-/

/-- Number of square-root iterations each worker firing performs
(the loop bound in the initializer). -/
def sqrtWorkIterations : Nat := 2000000

/-- Period of the worker loop in milliseconds (the setInterval delay). -/
def workerPeriodMs : Nat := 1500

/-- Initial value of the shared counter: createSynchronizable(0). -/
def bgCountInit : Nat := 0

/-- The update applied by bgCount.setBlocking on each worker firing:
fun prev => prev + 1. -/
def workerIncrement (prev : Nat) : Nat := prev + 1

/-- Value of the shared counter bgCount after n completed worker firings. -/
def bgCountAfter : Nat → Nat
  | 0 => bgCountInit
  | n + 1 => workerIncrement (bgCountAfter n)

/-! ## Frame poller (WorkerColumn.tsx, useFrameCallback body)

Each frame reads current = bgCount.getDirty(); when displayCount.value
differs it writes displayCount.value = current and starts the bounce
animation on ballY. The step returns the new displayCount value and
whether a bounce animation was started this frame.
-/

/-- One invocation of the useFrameCallback poller body. First component:
the displayCount value after the frame; second component: whether a new
bounce animation was started during the frame. -/
def pollerStep (displayCount current : Nat) : Nat × Bool :=
  if displayCount ≠ current then (current, true) else (displayCount, false)

/-! ## Bounce animation (withTiming chain on ballY)

Reanimated semantics: Easing.quad t = t * t, and
Easing.inOut e t = if t < 1/2 then e (2 t) / 2 else 1 - e (2 (1 - t)) / 2.
withTiming animates linearly in the eased progress from the start value to
the target over the given duration.
-/

/-- Easing.quad from react-native-reanimated. -/
def quadEase (t : ℚ) : ℚ := t * t

/-- Easing.inOut from react-native-reanimated. -/
def inOutEase (e : ℚ → ℚ) (t : ℚ) : ℚ :=
  if t < 1 / 2 then e (2 * t) / 2 else 1 - e (2 * (1 - t)) / 2

/-- Value of a withTiming animation from start to target with the given
duration and easing, sampled at elapsed time τ. -/
def withTimingAt (start target duration : ℚ) (e : ℚ → ℚ) (τ : ℚ) : ℚ :=
  start + (target - start) * e (τ / duration)

/-- Duration of each leg of the bounce (both withTiming calls use 500 ms). -/
def bounceLegMs : ℚ := 500

/-- The two-phase bounce started by the poller on ballY: first leg animates
0 to bounceHeight over 500 ms with Easing.inOut Easing.quad, then the
completion callback starts the second leg from bounceHeight back to 0 over
500 ms with the same easing. Sampled at elapsed time τ since the start. -/
def bounceY (bounceHeight τ : ℚ) : ℚ :=
  if τ ≤ bounceLegMs then
    withTimingAt 0 bounceHeight bounceLegMs (inOutEase quadEase) τ
  else
    withTimingAt bounceHeight 0 bounceLegMs (inOutEase quadEase) (τ - bounceLegMs)

/-! ## Theorems for the worker counter and the poller -/

/-- Helper: the counter after n firings is n. -/
theorem bgCountAfter_eq (n : Nat) : bgCountAfter n = n := by
  induction n with
  | zero => rfl
  | succ k ih => simp [bgCountAfter, workerIncrement, ih]

/-- C1: CrossContextCounter starts at 0, each completed worker firing
increments it by exactly 1, and over every sequence of firings it is
monotonically non-decreasing (it never skips a value and never goes
backward: consecutive values differ by exactly one). -/
theorem bgCount_monotone_unit_increments :
    bgCountAfter 0 = 0 ∧
    (∀ n, bgCountAfter (n + 1) = bgCountAfter n + 1) ∧
    (∀ m n, m ≤ n → bgCountAfter m ≤ bgCountAfter n) := by
  refine ⟨rfl, fun n => rfl, fun m n h => ?_⟩
  simp only [bgCountAfter_eq]
  exact h

/-- Witness for C1 at m = 2, n = 5. -/
theorem bgCount_monotone_unit_increments_witness :
    bgCountAfter 2 ≤ bgCountAfter 5 :=
  bgCount_monotone_unit_increments.2.2 2 5 (by decide)

/-- C2: when the read counter value differs from the mirrored
displayCount, the poller writes the new value and starts the two-phase
bounce: ballY is 0 at the start, reaches bounceHeight at 500 ms (end of
the first eased leg), and is back at 0 at 1000 ms (end of the second
eased leg started by the completion callback). -/
theorem poller_change_starts_bounce (d c : Nat) (b : ℚ) (h : d ≠ c) :
    pollerStep d c = (c, true) ∧
    bounceY b 0 = 0 ∧ bounceY b 500 = b ∧ bounceY b 1000 = 0 := by
  refine ⟨by simp [pollerStep, h], ?_, ?_, ?_⟩
  · norm_num [bounceY, bounceLegMs, withTimingAt, inOutEase, quadEase]
  · norm_num [bounceY, bounceLegMs, withTimingAt, inOutEase, quadEase]
  · norm_num [bounceY, bounceLegMs, withTimingAt, inOutEase, quadEase]

/-- Witness for C2 at displayCount 0, counter 1, bounce height 250. -/
theorem poller_change_starts_bounce_witness :
    pollerStep 0 1 = (1, true) ∧
    bounceY 250 0 = 0 ∧ bounceY 250 500 = 250 ∧ bounceY 250 1000 = 0 :=
  poller_change_starts_bounce 0 1 250 (by decide)

/-- C3: the poller is idempotent on an unchanged counter: when the read
value equals displayCount nothing is written and no animation starts, and
after any frame a second frame reading the same counter value starts zero
additional animations. -/
theorem poller_idempotent_on_unchanged :
    (∀ d, pollerStep d d = (d, false)) ∧
    (∀ d c, (pollerStep (pollerStep d c).1 c).2 = false) := by
  constructor
  · intro d
    simp [pollerStep]
  · intro d c
    by_cases h : d ≠ c <;> simp [pollerStep, h]

/-- C10: when the counter advanced by at least two between consecutive
poller frames, the poller jumps displayCount directly to the latest read
value, skipping the intermediate values, and starts exactly one bounce for
the whole batch of increments. -/
theorem poller_skips_to_latest :
    ∀ d k : Nat, pollerStep d (d + k + 2) = (d + k + 2, true) := by
  intro d k
  have h : d ≠ d + k + 2 := by omega
  simp [pollerStep, h]

/-! ## Main-thread ticker (AntigravityScreen.tsx, the 16 ms setInterval)

Each tick computes next = prev + 5 * bridgeDirection; when
next >= BOUNCE_HEIGHT or next <= 0 the direction is multiplied by -1; the
returned position is next itself, never clamped.
-/

/-- Period of the main-thread ticker in milliseconds. -/
def framePeriodMs : Nat := 16

/-- Step added to the position each tick of the main-thread ticker. -/
def bridgeStep : ℚ := 5

/-- One tick of the main-thread ticker on the pair
(bridgePos, bridgeDirection). -/
def bridgeTick (bound : ℚ) (s : ℚ × ℚ) : ℚ × ℚ :=
  let next := s.1 + bridgeStep * s.2
  (next, if bound ≤ next ∨ next ≤ 0 then -s.2 else s.2)

/-- State of the main-thread ticker after n ticks, starting from position 0
with direction +1 (the initial useState / useRef values). -/
def bridgeAfter (bound : ℚ) : Nat → ℚ × ℚ
  | 0 => (0, 1)
  | n + 1 => bridgeTick bound (bridgeAfter bound n)

/-- Helper: closed form of the first 50 ticks at bound 250: position 5 k,
direction +1 until the 50th tick flips it. -/
theorem bridgeAfter_closed (k : ℕ) (hk : k ≤ 50) :
    bridgeAfter 250 k = (((5 * k : ℕ) : ℚ), if k = 50 then -1 else 1) := by
  induction k with
  | zero => norm_num [bridgeAfter]
  | succ n ih =>
    have hn : n ≤ 50 := by omega
    have hne : n ≠ 50 := by omega
    rw [bridgeAfter, ih hn, if_neg hne]
    by_cases h49 : n = 49
    · subst h49
      norm_num [bridgeTick, bridgeStep]
    · have hcond : ¬((250 : ℚ) ≤ ((5 * n : ℕ) : ℚ) + 5 * 1 ∨
          ((5 * n : ℕ) : ℚ) + 5 * 1 ≤ 0) := by
        have hle : ((5 * n : ℕ) : ℚ) ≤ 240 := by
          have h5 : (5 * n : ℕ) ≤ 240 := by omega
          exact_mod_cast h5
        have hge : (0 : ℚ) ≤ ((5 * n : ℕ) : ℚ) := Nat.cast_nonneg _
        push_neg
        constructor <;> linarith
      have hnsucc : n + 1 ≠ 50 := by omega
      simp only [bridgeTick, bridgeStep]
      rw [if_neg hcond, if_neg hnsucc]
      refine Prod.ext ?_ rfl
      push_cast
      ring

/-- C4: after N unblocked ticks the ticker state is the N-fold application
of the reflecting-bounce recurrence to (0, +1); with bound 250 every tick
k < 50 has position 5 k with direction still +1 (no reflection), and the
50th tick lands exactly on position 250 and flips the direction to -1. -/
theorem bridge_recurrence_and_scenario :
    (∀ N, bridgeAfter 250 N = (bridgeTick 250)^[N] (0, 1)) ∧
    bridgeAfter 250 50 = (250, -1) ∧
    (∀ k, k < 50 → bridgeAfter 250 k = (((5 * k : ℕ) : ℚ), 1)) := by
  refine ⟨?_, ?_, ?_⟩
  · intro N
    induction N with
    | zero => rfl
    | succ n ih =>
      rw [Function.iterate_succ_apply']
      simp [bridgeAfter, ih]
  · have h := bridgeAfter_closed 50 le_rfl
    norm_num at h
    exact h
  · intro k hk
    have h := bridgeAfter_closed k (by omega)
    rw [if_neg (by omega : k ≠ 50)] at h
    exact h

/-- Witness for C4 at k = 10. -/
theorem bridge_recurrence_and_scenario_witness :
    bridgeAfter 250 10 = (((5 * 10 : ℕ) : ℚ), 1) :=
  bridge_recurrence_and_scenario.2.2 10 (by norm_num)

/-- C5 counterexample: at position 245 with direction +1 and bound 250 the
tick computes next = 250 and the code flips the direction, although next
neither strictly exceeds the bound nor is strictly below zero — refuting
the claimed strict if-and-only-if flip condition. -/
theorem bridgeTick_boundary_cex :
    (bridgeTick 250 (245, 1)).2 = -1 ∧
    ¬(((245 : ℚ) + 5 * 1 > 250) ∨ ((245 : ℚ) + 5 * 1 < 0)) := by
  constructor
  · norm_num [bridgeTick, bridgeStep]
  · push_neg
    norm_num

/-- C5 amended: each tick returns next = pos + 5 * dir unclamped, and
flips the direction sign exactly when next reaches or exceeds the upper
bound or is zero or below (inclusive comparisons, matching the source
condition next >= BOUNCE_HEIGHT || next <= 0). -/
theorem bridgeTick_characterization (bound p d : ℚ) (hd : d ≠ 0) :
    (bridgeTick bound (p, d)).1 = p + 5 * d ∧
    ((bridgeTick bound (p, d)).2 = -d ↔
      (bound ≤ p + 5 * d ∨ p + 5 * d ≤ 0)) ∧
    ((bridgeTick bound (p, d)).2 = d ↔
      ¬(bound ≤ p + 5 * d ∨ p + 5 * d ≤ 0)) := by
  have hne : -d ≠ d := by
    intro h
    apply hd
    linarith [h]
  have hne2 : d ≠ -d := fun h => hne h.symm
  have h1 : (bridgeTick bound (p, d)).1 = p + 5 * d := rfl
  have h2 : (bridgeTick bound (p, d)).2 =
      if bound ≤ p + 5 * d ∨ p + 5 * d ≤ 0 then -d else d := rfl
  refine ⟨h1, ?_, ?_⟩ <;> rw [h2] <;>
    by_cases hc : bound ≤ p + 5 * d ∨ p + 5 * d ≤ 0
  · rw [if_pos hc]
    exact ⟨fun _ => hc, fun _ => rfl⟩
  · rw [if_neg hc]
    exact ⟨fun h => absurd h hne2, fun h => absurd h hc⟩
  · rw [if_pos hc]
    exact ⟨fun h => absurd h hne, fun hnc => absurd hc hnc⟩
  · rw [if_neg hc]
    exact ⟨fun _ => hc, fun _ => rfl⟩

/-- Witness for the amended C5 at bound 250, position 245, direction +1. -/
theorem bridgeTick_characterization_witness :
    (bridgeTick 250 ((245 : ℚ), 1)).2 = -1 ↔
      ((250 : ℚ) ≤ 245 + 5 * 1 ∨ (245 : ℚ) + 5 * 1 ≤ 0) :=
  (bridgeTick_characterization 250 245 1 (by norm_num)).2.1

/-! ## Rotation angle (RocketAppleColumn.tsx, getAngle worklet)

getAngle pos maxHeight = Math.round(interpolate(pos, [0, maxHeight],
[0, 360])), where reanimated interpolate with the default extend
extrapolation is the linear map through the two given points.
-/

/-- Reanimated interpolate on a single segment with extend extrapolation:
the linear map sending [inLo, inHi] to [outLo, outHi]. -/
def interpolate (x inLo inHi outLo outHi : ℚ) : ℚ :=
  outLo + (x - inLo) * (outHi - outLo) / (inHi - inLo)

/-- The getAngle worklet of RocketAppleColumn.tsx. -/
def getAngle (pos maxHeight : ℚ) : ℤ :=
  round (interpolate pos 0 maxHeight 0 360)

/-- Modelled from the spec: the linear interpolation written in the spec
sentence, mapping pos from [0, bound] to [0, 360]; used to compare the
source definition against the spec formula. -/
def lerpSpec (pos lo hi outLo outHi : ℚ) : ℚ :=
  outLo + (pos - lo) / (hi - lo) * (outHi - outLo)

/-- Helper: rounding is monotone over the rationals. -/
theorem round_mono_rat {x y : ℚ} (h : x ≤ y) : round x ≤ round y := by
  rw [round_eq, round_eq]
  exact Int.floor_le_floor (by linarith)

/-- C6: for positive bound, getAngle agrees with the rounded spec lerp at
every position, sends 0 to 0 and the bound to 360, is monotone
non-decreasing in the position, and maps [0, bound] into [0, 360]. -/
theorem getAngle_spec (b : ℚ) (hb : 0 < b) :
    (∀ pos, getAngle pos b = round (lerpSpec pos 0 b 0 360)) ∧
    getAngle 0 b = 0 ∧
    getAngle b b = 360 ∧
    (∀ p q, p ≤ q → getAngle p b ≤ getAngle q b) ∧
    (∀ pos, 0 ≤ pos → pos ≤ b → 0 ≤ getAngle pos b ∧ getAngle pos b ≤ 360) := by
  have hb0 : b ≠ 0 := ne_of_gt hb
  have hkey : ∀ pos : ℚ, interpolate pos 0 b 0 360 = pos * 360 / b := by
    intro pos
    simp only [interpolate]
    ring
  have hmono : ∀ p q : ℚ, p ≤ q → getAngle p b ≤ getAngle q b := by
    intro p q hpq
    apply round_mono_rat
    rw [hkey, hkey]
    exact div_le_div_of_nonneg_right (by linarith) hb.le
  have h0 : getAngle 0 b = 0 := by
    simp [getAngle, hkey]
  have h360 : getAngle b b = 360 := by
    have : interpolate b 0 b 0 360 = 360 := by
      rw [hkey]
      field_simp
    simp only [getAngle, this]
    norm_num
  refine ⟨?_, h0, h360, hmono, ?_⟩
  · intro pos
    simp only [getAngle, lerpSpec, interpolate]
    congr 1
    ring
  · intro pos hpos hposb
    constructor
    · have := hmono 0 pos hpos
      rw [h0] at this
      exact this
    · have := hmono pos b hposb
      rw [h360] at this
      exact this

/-- Witness for C6 at bound 250: getAngle fixes the endpoints. -/
theorem getAngle_spec_witness :
    getAngle 0 250 = 0 ∧ getAngle 250 250 = 360 :=
  ⟨(getAngle_spec 250 (by norm_num)).2.1,
   (getAngle_spec 250 (by norm_num)).2.2.1⟩

/-! ## Jam action (AntigravityScreen.tsx, jamJSThread)

jamJSThread runs setIsJammed(true), then setTimeout 50 ms, whose callback
busy-waits while Date.now() - start < 3000 and finally runs
setIsJammed(false). Times are idealized wall-clock milliseconds measured
from the invocation.
-/

/-- The setTimeout delay before the busy-wait starts (50 ms). -/
def jamDelayMs : Nat := 50

/-- Duration of the busy-wait loop (the 3000 ms wall-clock deadline). -/
def jamBlockMs : Nat := 3000

/-- Events of the jam action, in wall-clock order. -/
inductive JamEvent where
  | setFlag (value : Bool)
  | blockStart
  | blockEnd
  deriving DecidableEq

/-- The timed event trace produced by one invocation of jamJSThread:
the flag is set true synchronously at time 0; the busy-wait occupies the
main thread from jamDelayMs until jamDelayMs + jamBlockMs; immediately
after the loop exits the flag is set back to false. -/
def jamTimeline : List (Nat × JamEvent) :=
  [(0, JamEvent.setFlag true),
   (jamDelayMs, JamEvent.blockStart),
   (jamDelayMs + jamBlockMs, JamEvent.blockEnd),
   (jamDelayMs + jamBlockMs, JamEvent.setFlag false)]

/-- Value of isJammed at time t: the last setFlag event at or before t
(initially false before the action runs). -/
def isJammedAt (t : Nat) : Bool :=
  jamTimeline.foldl
    (fun acc e =>
      if e.1 ≤ t then
        match e.2 with
        | JamEvent.setFlag b => b
        | _ => acc
      else acc)
    false

/-- C7: the jam action performs exactly the claimed sequence: flag true at
time 0 (hence within 50 ms of invocation), the block spans from 50 ms to
50 + 3000 ms, the flag stays true throughout the block, and exactly
3000 ms after the block begins the flag is false again. -/
theorem jam_sequence :
    jamTimeline =
      [(0, JamEvent.setFlag true), (50, JamEvent.blockStart),
       (3050, JamEvent.blockEnd), (3050, JamEvent.setFlag false)] ∧
    isJammedAt 0 = true ∧
    (∀ t, t < jamDelayMs + jamBlockMs → isJammedAt t = true) ∧
    isJammedAt (jamDelayMs + jamBlockMs) = false := by
  refine ⟨rfl, rfl, ?_, rfl⟩
  intro t ht
  have h50 : t < 3050 := ht
  have h3050 : ¬(50 + 3000 ≤ t) := by omega
  simp [isJammedAt, jamTimeline, jamDelayMs, jamBlockMs, h3050]

/-- Witness for C7 just before the block ends. -/
theorem jam_sequence_witness : isJammedAt 3049 = true :=
  jam_sequence.2.2.1 3049 (by norm_num [jamDelayMs, jamBlockMs])

/-! ## Layout bound (AntigravityScreen.tsx, BOUNCE_HEIGHT)

BOUNCE_HEIGHT = SCREEN_HEIGHT > 0 ? SCREEN_HEIGHT * 0.35 : 250.
-/

/-- The fixed fallback bound used when the viewport height is unknown or
non-positive. -/
def fallbackBounceHeight : ℚ := 250

/-- The layout-derived bound computed by the orchestrator from the
viewport height. -/
def bounceHeightOf (screenHeight : ℚ) : ℚ :=
  if 0 < screenHeight then screenHeight * (35 / 100) else fallbackBounceHeight

/-- C8: the bound is 35 percent of the viewport height whenever the height
is strictly positive, and the fixed fallback 250 whenever it is not; no
error value exists in the fallback case. -/
theorem bounceHeight_spec (h : ℚ) :
    (0 < h → bounceHeightOf h = h * (35 / 100)) ∧
    (¬0 < h → bounceHeightOf h = 250) := by
  constructor
  · intro hp
    simp [bounceHeightOf, hp]
  · intro hp
    simp [bounceHeightOf, hp, fallbackBounceHeight]

/-- Witness for C8 at heights 800 (positive) and 0 (fallback). -/
theorem bounceHeight_spec_witness :
    bounceHeightOf 800 = 800 * (35 / 100) ∧ bounceHeightOf 0 = 250 :=
  ⟨(bounceHeight_spec 800).1 (by norm_num),
   (bounceHeight_spec 0).2 (by norm_num)⟩

/-! ## Discrete-time three-runtime model (for the blocking claim)

Millisecond-granular model combining the three scheduling domains: the
worker interval fires at every multiple of 1500 ms and increments the
shared counter; the main-thread ticker fires at multiples of 16 ms but
only when the main thread is not blocked; the UI-thread poller frame also
runs at multiples of 16 ms and is never affected by the main-thread
block. The blocked predicate is a parameter describing the jam window.
-/

/-- Combined state of the three runtimes at one instant. -/
structure SimState where
  counter : Nat
  displayed : Nat
  ballPos : ℚ
  ballDir : ℚ

/-- Initial state: counter 0, displayCount 0, bridge position 0 moving
upward. -/
def simInit : SimState := ⟨0, 0, 0, 1⟩

/-- Events at instant t (t ≥ 1): the worker increment when t is a
multiple of the worker period, the main-thread tick when t is a multiple
of the frame period and the main thread is not blocked, and the poller
frame when t is a multiple of the frame period (regardless of the
block). -/
def simStep (bound : ℚ) (blocked : Nat → Bool) (t : Nat) (s : SimState) : SimState :=
  let counterNext := if t % workerPeriodMs = 0 then workerIncrement s.counter else s.counter
  let bridgeNext :=
    if t % framePeriodMs = 0 ∧ blocked t = false then bridgeTick bound (s.ballPos, s.ballDir)
    else (s.ballPos, s.ballDir)
  let displayedNext :=
    if t % framePeriodMs = 0 then (pollerStep s.displayed counterNext).1 else s.displayed
  ⟨counterNext, displayedNext, bridgeNext.1, bridgeNext.2⟩

/-- State of the combined model after t milliseconds. -/
def simRun (bound : ℚ) (blocked : Nat → Bool) : Nat → SimState
  | 0 => simInit
  | t + 1 => simStep bound blocked (t + 1) (simRun bound blocked t)

/-- Helper: the poller always leaves displayCount equal to the value it
just read, whether or not it changed. -/
theorem pollerStep_fst (d c : Nat) : (pollerStep d c).1 = c := by
  by_cases h : d = c
  · subst h
    simp [pollerStep]
  · simp [pollerStep, h]

/-- Helper: the shared counter at time t is the number of whole worker
periods elapsed, independently of the blocked predicate. -/
theorem simRun_counter (bound : ℚ) (blocked : Nat → Bool) (t : Nat) :
    (simRun bound blocked t).counter = t / workerPeriodMs := by
  induction t with
  | zero => rfl
  | succ n ih =>
    simp only [simRun, simStep, workerIncrement]
    rw [Nat.succ_div]
    by_cases h : (n + 1) % workerPeriodMs = 0
    · have hd : workerPeriodMs ∣ n + 1 := Nat.dvd_iff_mod_eq_zero.mpr h
      simp [h, hd, ih]
    · have hd : ¬workerPeriodMs ∣ n + 1 := fun hdvd =>
        h (Nat.dvd_iff_mod_eq_zero.mp hdvd)
      simp [h, hd, ih]

/-- Helper: while every instant of (t0, t1] is blocked, the main-thread
ball position and direction do not change. -/
theorem simRun_pos_frozen (bound : ℚ) (blocked : Nat → Bool) (t0 t1 : Nat)
    (h01 : t0 ≤ t1)
    (hblock : ∀ u, t0 < u → u ≤ t1 → blocked u = true) :
    (simRun bound blocked t1).ballPos = (simRun bound blocked t0).ballPos ∧
    (simRun bound blocked t1).ballDir = (simRun bound blocked t0).ballDir := by
  induction t1, h01 using Nat.le_induction with
  | base => exact ⟨rfl, rfl⟩
  | succ n hn ih =>
    have hb : blocked (n + 1) = true := hblock (n + 1) (by omega) (by omega)
    have ih2 := ih fun u hu1 hu2 => hblock u hu1 (by omega)
    have hcond : ¬((n + 1) % framePeriodMs = 0 ∧ blocked (n + 1) = false) := by
      simp [hb]
    simp only [simRun, simStep, if_neg hcond]
    exact ih2

/-- Helper: at every poller frame instant, displayCount equals the shared
counter (the poller converges within the same frame). -/
theorem simRun_displayed_synced (bound : ℚ) (blocked : Nat → Bool) (t : Nat)
    (ht : t % framePeriodMs = 0) (hpos : 0 < t) :
    (simRun bound blocked t).displayed = (simRun bound blocked t).counter := by
  obtain ⟨n, rfl⟩ : ∃ n, t = n + 1 := ⟨t - 1, by omega⟩
  simp only [simRun, simStep]
  rw [if_pos ht, pollerStep_fst]

/-- C9: while the main thread is blocked during the whole window
(t0, t0 + D], the bridge ball position and direction are unchanged over
the window; the shared counter rises by an amount between D / 1500 and
D / 1500 + 1 (the phase-alignment slack); and at every poller frame at or
after the window end, displayCount equals the latest counter value. -/
theorem jam_window_behavior (bound : ℚ) (blocked : Nat → Bool) (t0 D : Nat)
    (hblock : ∀ u, t0 < u → u ≤ t0 + D → blocked u = true) :
    ((simRun bound blocked (t0 + D)).ballPos = (simRun bound blocked t0).ballPos ∧
     (simRun bound blocked (t0 + D)).ballDir = (simRun bound blocked t0).ballDir) ∧
    (D / workerPeriodMs ≤
        (simRun bound blocked (t0 + D)).counter - (simRun bound blocked t0).counter ∧
      (simRun bound blocked (t0 + D)).counter - (simRun bound blocked t0).counter ≤
        D / workerPeriodMs + 1) ∧
    (∀ t, t0 + D ≤ t → t % framePeriodMs = 0 → 0 < t →
      (simRun bound blocked t).displayed = (simRun bound blocked t).counter) := by
  refine ⟨simRun_pos_frozen bound blocked t0 (t0 + D) (by omega) hblock, ?_, ?_⟩
  · rw [simRun_counter, simRun_counter]
    simp only [workerPeriodMs]
    omega
  · intro t _ ht hpos
    exact simRun_displayed_synced bound blocked t ht hpos

/-- Witness for C9: a 3000 ms block starting at time 0 with every instant
blocked leaves the bridge ball position unchanged. -/
theorem jam_window_behavior_witness :
    (simRun 250 (fun _ => true) (0 + 3000)).ballPos =
      (simRun 250 (fun _ => true) 0).ballPos :=
  (jam_window_behavior 250 (fun _ => true) 0 3000 fun _ _ _ => rfl).1.1

end Antigravity
